import Mathlib

/-
Verification of the situation-grouped play-prediction engine:
a shallow embedding of src/models/play_trie.py, src/models/situation_groups.py
and src/models/grouped_trie.py, followed by theorems about the embedded code.

Conventions of the embedding:
  - Python ints are modelled as ℤ (ℕ for loop indices and counters that the
    code only ever increments from 0), Python floats as ℚ.
  - Python dicts are modelled as association lists in insertion order:
    an update rewrites the first matching key in place, a new key is
    appended at the end — exactly the observable ordering of a dict.
  - Python `sorted(..., key=itemgetter(1), reverse=True)` is a stable
    descending sort; it is modelled by a stable insertion sort, which is
    extensionally the same function.
  - `raise ValueError` is modelled by returning `Except.error`.
-/

/-- Play-type symbol of the corrected model: `SimplePlayType` with the codes
the classifier produces, namely P (pass), R (run) and OTHER. -/
inductive PlaySym where
  | P : PlaySym
  | R : PlaySym
  | other : PlaySym
deriving DecidableEq, Repr

/-- `SimplePlayType.code`. -/
def PlaySym.code : PlaySym → String
  | .P => "P"
  | .R => "R"
  | .other => "OTHER"

instance : Fintype PlaySym where
  elems := ⟨[PlaySym.P, PlaySym.R, PlaySym.other], by decide⟩
  complete := by intro x; cases x <;> decide

/-- `SituationGroup` enum from situation_groups.py, members in declaration
order. -/
inductive SituationGroup where
  | early_down_short
  | early_down_medium
  | early_down_long
  | third_short
  | third_medium
  | third_long
  | fourth_down
  | red_zone
  | goal_line
  | other
deriving DecidableEq, Repr

/-- The `.value` string of each enum member. -/
def SituationGroup.value : SituationGroup → String
  | .early_down_short => "early_down_short"
  | .early_down_medium => "early_down_medium"
  | .early_down_long => "early_down_long"
  | .third_short => "third_short"
  | .third_medium => "third_medium"
  | .third_long => "third_long"
  | .fourth_down => "fourth_down"
  | .red_zone => "red_zone"
  | .goal_line => "goal_line"
  | .other => "other"

/-- Bucket keys of the grouped trie: `Union[SituationGroup, str]` — either a
canonical enum member or a runtime-built composite string. -/
inductive GroupKey where
  | base : SituationGroup → GroupKey
  | composite : String → GroupKey
deriving DecidableEq, Repr

/-- `get_score_context` from situation_groups.py. -/
def get_score_context (score_differential : ℚ) : String :=
  if score_differential ≤ -7 then "trailing"
  else if 7 ≤ score_differential then "leading"
  else "tied"

/-- `get_situation_group` from situation_groups.py. -/
def get_situation_group (down ydstogo yardline_100 : ℤ) : SituationGroup :=
  if yardline_100 ≤ 5 then .goal_line
  else if yardline_100 ≤ 20 then .red_zone
  else if down = 4 then .fourth_down
  else if down = 3 then
    (if ydstogo ≤ 3 then .third_short
     else if ydstogo ≤ 7 then .third_medium
     else .third_long)
  else if down = 1 ∨ down = 2 then
    (if ydstogo ≤ 3 then .early_down_short
     else if ydstogo ≤ 7 then .early_down_medium
     else .early_down_long)
  else .other

/-- `get_score_aware_situation`. -/
def get_score_aware_situation (down ydstogo yardline_100 : ℤ)
    (score_differential : ℚ) : String :=
  (get_situation_group down ydstogo yardline_100).value ++ "_" ++
    get_score_context score_differential

/-- `get_team_identity_context`. -/
def get_team_identity_context (pass_rate : ℚ) : String :=
  if 3/5 ≤ pass_rate then "pass_heavy"
  else if pass_rate ≤ 9/20 then "run_heavy"
  else "balanced"

/-- `get_team_identity_situation`. -/
def get_team_identity_situation (down ydstogo yardline_100 : ℤ)
    (team_pass_rate : ℚ) : String :=
  (get_situation_group down ydstogo yardline_100).value ++ "_" ++
    get_team_identity_context team_pass_rate

/-- `get_combined_situation`. -/
def get_combined_situation (down ydstogo yardline_100 : ℤ)
    (score_differential team_pass_rate : ℚ) : String :=
  (get_situation_group down ydstogo yardline_100).value ++ "_" ++
    get_score_context score_differential ++ "_" ++
    get_team_identity_context team_pass_rate

/-- `get_time_context`. -/
def get_time_context (game_seconds_remaining : ℚ) : String :=
  if game_seconds_remaining ≤ 120 then "two_minute" else "normal"

/-- `get_home_away_context` (lower-casing of the posteam type). -/
def get_home_away_context (posteam_type : String) : String :=
  posteam_type.toLower

/-- `get_phase1_situation`. -/
def get_phase1_situation (down ydstogo yardline_100 : ℤ)
    (game_seconds_remaining : ℚ) (posteam_type : String) : String :=
  (get_situation_group down ydstogo yardline_100).value ++ "_" ++
    get_time_context game_seconds_remaining ++ "_" ++
    get_home_away_context posteam_type

/-- Lookup in an association list: the value at the first matching key
(Python `d[k]` / `d.get(k)`). -/
def alookup {κ β : Type} [DecidableEq κ] : List (κ × β) → κ → Option β
  | [], _ => none
  | p :: t, k => if p.1 = k then some p.2 else alookup t k

/-- Store into an association list: rewrite the first matching key in place,
append at the end when absent (Python `d[k] = v`). -/
def aset {κ β : Type} [DecidableEq κ] : List (κ × β) → κ → β → List (κ × β)
  | [], k, v => [(k, v)]
  | p :: t, k, v => if p.1 = k then (k, v) :: t else p :: aset t k v

/-- `d.get(k, d0)`. -/
def alookupD {κ β : Type} [DecidableEq κ] (l : List (κ × β)) (k : κ) (d0 : β) : β :=
  (alookup l k).getD d0

/-- Per-node payload of `TrieNode` (play_trie.py): next-play counts in dict
order, the visit counter and the EPA accumulators. -/
structure NodeData where
  nextCounts : List (PlaySym × ℕ)
  totalVisits : ℕ
  epaSum : ℚ
  epaCount : ℕ

/-- `TrieNode`: payload plus children in dict order. -/
inductive Trie where
  | mk : NodeData → List (PlaySym × Trie) → Trie

/-- The payload of a node. -/
def Trie.data : Trie → NodeData
  | .mk nd _ => nd

/-- The children of a node. -/
def Trie.children : Trie → List (PlaySym × Trie)
  | .mk _ cs => cs

/-- `TrieNode()` freshly constructed. -/
def emptyTrie : Trie :=
  .mk { nextCounts := [], totalVisits := 0, epaSum := 0, epaCount := 0 } []

/-- `node.children[s]` when present. -/
def getChild (t : Trie) (s : PlaySym) : Option Trie :=
  alookup t.children s

/-- `node.children[s] = c`. -/
def setChild (t : Trie) (s : PlaySym) (c : Trie) : Trie :=
  .mk t.data (aset t.children s c)

/-- One iteration block of the inner loop of `insert_sequence`, applied to the
child that the loop variable `current` moves to: bump `total_visits`,
accumulate the EPA head when one is available, and record the next play when
one exists. -/
def bumpData (nd : NodeData) (es : List ℚ) (tail : List PlaySym) : NodeData :=
  { nextCounts :=
      match tail with
      | [] => nd.nextCounts
      | y :: _ => aset nd.nextCounts y (alookupD nd.nextCounts y 0 + 1)
    totalVisits := nd.totalVisits + 1
    epaSum :=
      match es with
      | [] => nd.epaSum
      | e :: _ => nd.epaSum + e
    epaCount :=
      match es with
      | [] => nd.epaCount
      | _ :: _ => nd.epaCount + 1 }

/-- The walk of `insert_sequence` for one start offset: consume up to `d`
symbols of `rest` (with the parallel EPA tail `es`), creating children on
demand and bumping the counters of each node entered. -/
def insertWalk (t : Trie) (rest : List PlaySym) (es : List ℚ) (d : ℕ) : Trie :=
  match d, rest with
  | 0, _ => t
  | _ + 1, [] => t
  | d + 1, x :: tail =>
      let c0 := (getChild t x).getD emptyTrie
      let c1 : Trie := .mk (bumpData c0.data es tail) c0.children
      setChild t x (insertWalk c1 tail (es.drop 1) d)

/-- The outer loop of `insert_sequence` over all start offsets, in order. -/
def insertAllSuffixes (t : Trie) (xs : List PlaySym) (es : List ℚ) (d : ℕ) : Trie :=
  match xs with
  | [] => t
  | _ :: tail => insertAllSuffixes (insertWalk t xs es d) tail (es.drop 1) d

/-- The child-following loop of `PlaySequenceTrie.predict`: follow links while
they exist, returning the node reached and the depth matched. -/
def predictWalk (t : Trie) (ys : List PlaySym) : Trie × ℕ :=
  match ys with
  | [] => (t, 0)
  | x :: tail =>
      match getChild t x with
      | some c =>
          let r := predictWalk c tail
          (r.1, r.2 + 1)
      | none => (t, 0)

/-- Stable insertion step of the descending-by-count sort. -/
def insDesc (p : PlaySym × ℕ) : List (PlaySym × ℕ) → List (PlaySym × ℕ)
  | [] => [p]
  | q :: t => if q.2 ≤ p.2 then p :: q :: t else q :: insDesc p t

/-- Python `sorted(items, key=itemgetter(1), reverse=True)`: the stable sort
by count, descending. -/
def sortDesc : List (PlaySym × ℕ) → List (PlaySym × ℕ)
  | [] => []
  | p :: t => insDesc p (sortDesc t)

/-- `TrieNode.get_next_play_probs`. -/
def get_next_play_probs (t : Trie) (k : ℕ) : List (PlaySym × ℚ) :=
  if t.data.totalVisits = 0 then []
  else
    ((sortDesc t.data.nextCounts).take k).map
      (fun p => (p.1, (p.2 : ℚ) / (t.data.totalVisits : ℚ)))

/-- `PlaySequenceTrie`. -/
structure PST where
  root : Trie
  maxDepth : ℕ
  totalSequences : ℕ

/-- `PlaySequenceTrie(max_depth)`. -/
def pstEmpty (maxDepth : ℕ) : PST :=
  { root := emptyTrie, maxDepth := maxDepth, totalSequences := 0 }

/-- `PlaySequenceTrie.insert_sequence` (`es = []` stands for `epas=None` and
for an empty EPA list, which Python treats alike). -/
def insert_sequence (t : PST) (xs : List PlaySym) (es : List ℚ) : PST :=
  if xs.isEmpty then t
  else
    { root := insertAllSuffixes t.root xs es t.maxDepth
      maxDepth := t.maxDepth
      totalSequences := t.totalSequences + 1 }

/-- `recent_plays[-max_depth:]` — note that a zero max depth keeps the whole
list, exactly as the Python slice does. -/
def recentWindow (maxDepth : ℕ) (recents : List PlaySym) : List PlaySym :=
  if maxDepth = 0 then recents else recents.drop (recents.length - maxDepth)

/-- `PlaySequenceTrie.predict`. -/
def pstPredict (t : PST) (recent_plays : List PlaySym) (k : ℕ) :
    List (PlaySym × ℚ) × ℕ :=
  let r := predictWalk t.root (recentWindow t.maxDepth recent_plays)
  (get_next_play_probs r.1 k, r.2)

/-- Constructor arguments of `SituationGroupedTrie.__init__` with their
default values. -/
structure Config where
  max_depth : ℕ := 8
  use_score : Bool := false
  features : Option (List String) := none
  use_hierarchical_fallback : Bool := true
  min_examples_threshold : ℤ := 50

/-- The mutable state of a `SituationGroupedTrie`.  The `fallback_stats`
counters are omitted: they are diagnostics that the prediction and insertion
logic never reads, and no claim mentions them. -/
structure State where
  max_depth : ℕ
  use_hierarchical_fallback : Bool
  min_examples_threshold : ℤ
  features : List String
  use_score : Bool
  use_team_identity : Bool
  use_time_remaining : Bool
  use_home_away : Bool
  tries : List (GroupKey × PST)
  situation_counts : List (GroupKey × ℤ)
  league_average : List (String × ℚ)

/-- The ten `SituationGroup` members in declaration order, as iterated by
`for group in SituationGroup`. -/
def allGroups : List SituationGroup :=
  [.early_down_short, .early_down_medium, .early_down_long,
   .third_short, .third_medium, .third_long,
   .fourth_down, .red_zone, .goal_line, .other]

/-- `SituationGroupedTrie.__init__`. -/
def mkState (cfg : Config) : State :=
  let features :=
    match cfg.features with
    | none => if cfg.use_score then ["score"] else []
    | some fs => fs
  { max_depth := cfg.max_depth
    use_hierarchical_fallback := cfg.use_hierarchical_fallback
    min_examples_threshold := cfg.min_examples_threshold
    features := features
    use_score := features.contains "score"
    use_team_identity := features.contains "team_identity"
    use_time_remaining := features.contains "time_remaining"
    use_home_away := features.contains "home_away"
    tries :=
      if features.isEmpty then
        allGroups.map (fun g => (GroupKey.base g, pstEmpty cfg.max_depth))
      else []
    situation_counts := []
    league_average := [("P", 0.58), ("R", 0.42)] }

/-- The bucket chosen by the insertion loop of `insert_drive` at index `i`
(the `if/elif` chain over the enabled features and the presence of the
corresponding lists). -/
def insertionGroup (st : State) (down ydstogo yardline_100 : ℤ)
    (score_diffs team_pass_rates game_seconds_remaining : Option (List ℚ))
    (posteam_types : Option (List String)) (i : ℕ) : GroupKey :=
  if st.use_time_remaining && st.use_home_away then
    match game_seconds_remaining, posteam_types with
    | some gl, some pl =>
        .composite (get_phase1_situation down ydstogo yardline_100
          (gl.getD i 0) (pl.getD i ""))
    | _, _ => .base (get_situation_group down ydstogo yardline_100)
  else if st.use_score && st.use_team_identity then
    match score_diffs, team_pass_rates with
    | some sl, some tl =>
        .composite (get_combined_situation down ydstogo yardline_100
          (sl.getD i 0) (tl.getD i 0))
    | _, _ => .base (get_situation_group down ydstogo yardline_100)
  else if st.use_score then
    match score_diffs with
    | some sl =>
        .composite (get_score_aware_situation down ydstogo yardline_100
          (sl.getD i 0))
    | none => .base (get_situation_group down ydstogo yardline_100)
  else if st.use_team_identity then
    match team_pass_rates with
    | some tl =>
        .composite (get_team_identity_situation down ydstogo yardline_100
          (tl.getD i 0))
    | none => .base (get_situation_group down ydstogo yardline_100)
  else .base (get_situation_group down ydstogo yardline_100)

/-- The three statements `if group not in tries: tries[group] = PST(...)`,
`tries[group].insert_sequence(...)` and `situation_counts[group] += 1`. -/
def addToBucket (st : State) (g : GroupKey) (plays : List PlaySym)
    (es : List ℚ) : State :=
  let tr := (alookup st.tries g).getD (pstEmpty st.max_depth)
  { st with
    tries := aset st.tries g (insert_sequence tr plays es)
    situation_counts :=
      aset st.situation_counts g (alookupD st.situation_counts g 0 + 1) }

/-- One iteration of the insertion loop of `insert_drive` (index `i`). -/
def insertStep (play_types : List PlaySym) (situations : List (ℤ × ℤ × ℤ))
    (epas : Option (List ℚ))
    (score_diffs team_pass_rates game_seconds_remaining : Option (List ℚ))
    (posteam_types : Option (List String)) (st : State) (i : ℕ) : State :=
  let s := situations.getD i (0, 0, 0)
  let g := insertionGroup st s.1 s.2.1 s.2.2
    score_diffs team_pass_rates game_seconds_remaining posteam_types i
  let start := i - st.max_depth
  let recent_plays := (play_types.drop start).take (i + 1 - start)
  let recent_epas := ((epas.getD []).drop start).take (i + 1 - start)
  let st1 := addToBucket st g recent_plays recent_epas
  if !st.features.isEmpty && st.use_hierarchical_fallback then
    addToBucket st1 (.base (get_situation_group s.1 s.2.1 s.2.2))
      recent_plays recent_epas
  else st1

/-- The test `xs is not None and len(xs) != n` on an optional list. -/
def optLenBad {α : Type} (o : Option (List α)) (n : ℕ) : Bool :=
  match o with
  | some l => l.length != n
  | none => false

/-- `SituationGroupedTrie.insert_drive`; `raise ValueError` is an
`Except.error` carrying the message. -/
def insert_drive (st : State) (play_types : List PlaySym)
    (situations : List (ℤ × ℤ × ℤ)) (epas : Option (List ℚ))
    (score_diffs team_pass_rates game_seconds_remaining : Option (List ℚ))
    (posteam_types : Option (List String)) : Except String State :=
  if play_types.length ≠ situations.length then
    .error "play_types and situations must have same length"
  else if st.use_score && optLenBad score_diffs situations.length then
    .error "score_diffs must match situations length when using score-aware grouping"
  else if st.use_team_identity && optLenBad team_pass_rates situations.length then
    .error "team_pass_rates must match situations length when using team identity grouping"
  else if st.use_time_remaining && optLenBad game_seconds_remaining situations.length then
    .error "game_seconds_remaining must match situations length when using time context"
  else if st.use_home_away && optLenBad posteam_types situations.length then
    .error "posteam_types must match situations length when using home/away context"
  else
    .ok ((List.range play_types.length).foldl
      (insertStep play_types situations epas
        score_diffs team_pass_rates game_seconds_remaining posteam_types) st)

/-- `SituationGroupedTrie._has_sufficient_data`. -/
def has_sufficient_data (st : State) (g : GroupKey) : Bool :=
  st.min_examples_threshold ≤ alookupD st.situation_counts g 0

/-- The normalization step of `_aggregate_predictions`: divide by the total
when it is positive, return unchanged otherwise. -/
def normalizeAgg (acc : List (String × ℚ)) : List (String × ℚ) :=
  if 0 < (acc.map Prod.snd).sum then
    acc.map (fun p => (p.1, p.2 / (acc.map Prod.snd).sum))
  else acc

/-- `SituationGroupedTrie._aggregate_predictions`: group the probabilities by
`play_type.code`, then normalize when the total is positive. -/
def aggregate_predictions (preds : List (PlaySym × ℚ)) : List (String × ℚ) :=
  normalizeAgg (preds.foldl
    (fun a p => aset a p.1.code (alookupD a p.1.code 0 + p.2)) [])

/-- `SituationGroupedTrie._get_specific_situation_group`. -/
def specific_situation_group (st : State) (down ydstogo yardline_100 : ℤ)
    (score_diff team_pass_rate game_seconds_remaining : Option ℚ)
    (posteam_type : Option String) : GroupKey :=
  if st.use_time_remaining && st.use_home_away then
    match game_seconds_remaining, posteam_type with
    | some g, some p =>
        .composite (get_phase1_situation down ydstogo yardline_100 g p)
    | _, _ => .base (get_situation_group down ydstogo yardline_100)
  else if st.use_score && st.use_team_identity then
    match score_diff, team_pass_rate with
    | some sd, some tp =>
        .composite (get_combined_situation down ydstogo yardline_100 sd tp)
    | _, _ => .base (get_situation_group down ydstogo yardline_100)
  else if st.use_score then
    match score_diff with
    | some sd =>
        .composite (get_score_aware_situation down ydstogo yardline_100 sd)
    | none => .base (get_situation_group down ydstogo yardline_100)
  else if st.use_team_identity then
    match team_pass_rate with
    | some tp =>
        .composite (get_team_identity_situation down ydstogo yardline_100 tp)
    | none => .base (get_situation_group down ydstogo yardline_100)
  else .base (get_situation_group down ydstogo yardline_100)

/-- Fallback levels 2 and 3 of `SituationGroupedTrie.predict`: the canonical
bucket when it exists with sufficient data and a non-empty aggregate, the
league average otherwise. -/
def predictLevel2 (st : State) (down ydstogo yardline_100 : ℤ)
    (recent_play_types : List PlaySym) : List (String × ℚ) × ℕ :=
  let base := GroupKey.base (get_situation_group down ydstogo yardline_100)
  match alookup st.tries base with
  | some tr =>
      if has_sufficient_data st base then
        let r := pstPredict tr recent_play_types 10
        let agg := aggregate_predictions r.1
        if agg.isEmpty then (st.league_average, 0) else (agg, r.2)
      else (st.league_average, 0)
  | none => (st.league_average, 0)

/-- `SituationGroupedTrie.predict`.  The unused `k` parameter is kept to
mirror the source signature; the inner trie queries use the literal `k=10`
just as the source does. -/
def predict (st : State) (situation : ℤ × ℤ × ℤ)
    (recent_play_types : List PlaySym) (k : ℕ)
    (score_diff team_pass_rate game_seconds_remaining : Option ℚ)
    (posteam_type : Option String) : List (String × ℚ) × ℕ :=
  let specific := specific_situation_group st situation.1 situation.2.1
    situation.2.2 score_diff team_pass_rate game_seconds_remaining posteam_type
  if st.use_hierarchical_fallback then
    match alookup st.tries specific with
    | some tr =>
        if has_sufficient_data st specific then
          let r := pstPredict tr recent_play_types 10
          let agg := aggregate_predictions r.1
          if agg.isEmpty then
            predictLevel2 st situation.1 situation.2.1 situation.2.2
              recent_play_types
          else (agg, r.2)
        else
          predictLevel2 st situation.1 situation.2.1 situation.2.2
            recent_play_types
    | none =>
        predictLevel2 st situation.1 situation.2.1 situation.2.2
          recent_play_types
  else
    match alookup st.tries specific with
    | none => ([], 0)
    | some tr =>
        let r := pstPredict tr recent_play_types 10
        (aggregate_predictions r.1, r.2)

/-- The predictor states reachable by construction followed by any sequence
of successful `insert_drive` calls. -/
inductive Reachable : State → Prop where
  | init : ∀ cfg : Config, Reachable (mkState cfg)
  | step : ∀ {st st' : State} (play_types : List PlaySym)
      (situations : List (ℤ × ℤ × ℤ)) (epas : Option (List ℚ))
      (score_diffs team_pass_rates game_seconds_remaining : Option (List ℚ))
      (posteam_types : Option (List String)),
      Reachable st →
      insert_drive st play_types situations epas score_diffs team_pass_rates
        game_seconds_remaining posteam_types = Except.ok st' →
      Reachable st'

/-- Exact-path lookup in a trie: the node reached by consuming all of `p`,
when every link exists. -/
def findPath : Trie → List PlaySym → Option Trie
  | t, [] => some t
  | t, x :: p =>
      match getChild t x with
      | some c => findPath c p
      | none => none

/-- The stored next-play count for symbol `a` at a node (0 when absent). -/
def countD (t : Trie) (a : PlaySym) : ℕ :=
  alookupD t.data.nextCounts a 0

/-- Well-formedness of a trie as built by the code: at every node the
next-play counts have pairwise distinct keys and every stored count is at
least 1. -/
inductive TrieWF : Trie → Prop where
  | mk : ∀ (nd : NodeData) (cs : List (PlaySym × Trie)),
      (nd.nextCounts.map Prod.fst).Nodup →
      (∀ q ∈ nd.nextCounts, 1 ≤ q.2) →
      (∀ q ∈ cs, TrieWF q.2) →
      TrieWF (.mk nd cs)

/-- Well-formedness of a predictor state: every registered trie is
well-formed and the league average is the configured default. -/
def StateWF (st : State) : Prop :=
  (∀ q ∈ st.tries, TrieWF q.2.root) ∧
  st.league_average = [("P", 0.58), ("R", 0.42)]

/-- The one-direction registry/counts invariant: every key of the counts map
is registered with a non-negative count. -/
def CountsInv (st : State) : Prop :=
  ∀ q ∈ st.situation_counts, (alookup st.tries q.1).isSome = true ∧ 0 ≤ q.2

/-- A grouped trie constructed with `max_depth=5` and all other arguments at
their defaults. -/
def st0d : State := mkState { max_depth := 5 }

/-- The training drive of the exact-values scenario. -/
def c1Drive : List PlaySym := [.P, .R, .P]

/-- The situations of the exact-values scenario. -/
def c1Sits : List (ℤ × ℤ × ℤ) := [(1, 10, 75), (2, 6, 71), (3, 2, 65)]

/-- `st0d` after inserting the scenario drive. -/
def st1 : State :=
  (insert_drive st0d c1Drive c1Sits none none none none none).toOption.getD st0d

/-- The scenario predictor rebuilt with hierarchical fallback disabled. -/
def st0nf : State := mkState { max_depth := 5, use_hierarchical_fallback := false }

/-- `st0nf` after inserting the scenario drive. -/
def st1nf : State :=
  (insert_drive st0nf c1Drive c1Sits none none none none none).toOption.getD st0nf

/-- A play-sequence trie holding two occurrences of `[P,R,P]` and one of
`[P,R,R]`. -/
def t7 : PST :=
  insert_sequence
    (insert_sequence (insert_sequence (pstEmpty 10) [.P, .R, .P] []) [.P, .R, .P] [])
    [.P, .R, .R] []

section AssocLemmas

variable {κ β : Type} [DecidableEq κ]

theorem alookup_mem {l : List (κ × β)} {k : κ} {v : β}
    (h : alookup l k = some v) : (k, v) ∈ l := by
  induction l with
  | nil => simp [alookup] at h
  | cons p t ih =>
      obtain ⟨pk, pv⟩ := p
      by_cases hp : pk = k
      · simp [alookup, hp] at h
        subst hp
        subst h
        exact List.mem_cons_self _ _
      · simp [alookup, hp] at h
        exact List.mem_cons_of_mem _ (ih h)

theorem alookup_aset_self (l : List (κ × β)) (k : κ) (v : β) :
    alookup (aset l k v) k = some v := by
  induction l with
  | nil => simp [aset, alookup]
  | cons p t ih =>
      obtain ⟨pk, pv⟩ := p
      by_cases hp : pk = k
      · simp [aset, hp, alookup]
      · simp [aset, hp, alookup, ih]

theorem alookup_aset_ne (l : List (κ × β)) {k k2 : κ} (v : β) (h : k2 ≠ k) :
    alookup (aset l k v) k2 = alookup l k2 := by
  have hk : ¬(k = k2) := fun hh => h hh.symm
  induction l with
  | nil => simp [aset, alookup, hk]
  | cons p t ih =>
      obtain ⟨pk, pv⟩ := p
      by_cases hp : pk = k
      · subst hp
        simp [aset, alookup, hk]
      · by_cases hp2 : pk = k2
        · simp [aset, alookup, hp, hp2, hk, h]
        · simp [aset, alookup, hp, hp2, ih]

theorem aset_mem {l : List (κ × β)} {k : κ} {v : β} {q : κ × β}
    (h : q ∈ aset l k v) : (q.1 = k ∧ q.2 = v) ∨ q ∈ l := by
  induction l with
  | nil =>
      simp [aset] at h
      subst h
      exact Or.inl ⟨rfl, rfl⟩
  | cons p t ih =>
      obtain ⟨pk, pv⟩ := p
      by_cases hp : pk = k
      · simp only [aset, if_pos hp] at h
        rcases List.mem_cons.mp h with h1 | h1
        · subst h1
          exact Or.inl ⟨rfl, rfl⟩
        · exact Or.inr (List.mem_cons_of_mem _ h1)
      · simp only [aset, if_neg hp] at h
        rcases List.mem_cons.mp h with h1 | h1
        · exact Or.inr (by simp [h1])
        · rcases ih h1 with h2 | h2
          · exact Or.inl h2
          · exact Or.inr (List.mem_cons_of_mem _ h2)

theorem aset_keys_mem {l : List (κ × β)} {k : κ} {v : β} {a : κ}
    (h : a ∈ (aset l k v).map Prod.fst) : a = k ∨ a ∈ l.map Prod.fst := by
  rcases List.mem_map.mp h with ⟨q, hq, hqa⟩
  rcases aset_mem hq with h1 | h1
  · exact Or.inl (hqa ▸ h1.1)
  · exact Or.inr (hqa ▸ List.mem_map_of_mem Prod.fst h1)

theorem aset_keys_nodup {l : List (κ × β)} (k : κ) (v : β)
    (h : (l.map Prod.fst).Nodup) : ((aset l k v).map Prod.fst).Nodup := by
  induction l with
  | nil => simp [aset]
  | cons p t ih =>
      obtain ⟨pk, pv⟩ := p
      simp only [List.map_cons, List.nodup_cons] at h
      by_cases hp : pk = k
      · subst hp
        simpa [aset] using h
      · simp only [aset, if_neg hp, List.map_cons, List.nodup_cons]
        refine ⟨fun hmem => ?_, ih h.2⟩
        rcases aset_keys_mem hmem with h1 | h1
        · exact hp h1
        · exact h.1 h1

theorem alookup_isSome_aset {l : List (κ × β)} {k2 : κ} (k : κ) (v : β)
    (h : (alookup l k2).isSome = true) :
    (alookup (aset l k v) k2).isSome = true := by
  by_cases hk : k2 = k
  · subst hk
    rw [alookup_aset_self]
    rfl
  · rw [alookup_aset_ne l v hk]
    exact h

theorem alookupD_aset_self (l : List (κ × β)) (k : κ) (v d0 : β) :
    alookupD (aset l k v) k d0 = v := by
  rw [alookupD, alookup_aset_self]
  rfl

theorem alookupD_aset_ne (l : List (κ × β)) {k k2 : κ} (v d0 : β)
    (h : k2 ≠ k) : alookupD (aset l k v) k2 d0 = alookupD l k2 d0 := by
  rw [alookupD, alookup_aset_ne l v h]
  rfl

theorem alookupD_mem {l : List (κ × β)} {k : κ} {d0 : β}
    (h : alookupD l k d0 ≠ d0) : (k, alookupD l k d0) ∈ l := by
  cases hl : alookup l k with
  | none =>
      exfalso
      apply h
      rw [alookupD, hl]
      rfl
  | some v =>
      have hv : alookupD l k d0 = v := by rw [alookupD, hl]; rfl
      rw [hv]
      exact alookup_mem hl

end AssocLemmas

theorem setChild_data (t : Trie) (s : PlaySym) (c : Trie) :
    (setChild t s c).data = t.data := by
  cases t
  rfl

theorem setChild_children (t : Trie) (s : PlaySym) (c : Trie) :
    (setChild t s c).children = aset t.children s c := by
  cases t
  rfl

theorem getChild_setChild_self (t : Trie) (s : PlaySym) (c : Trie) :
    getChild (setChild t s c) s = some c := by
  rw [getChild, setChild_children]
  exact alookup_aset_self _ _ _

theorem getChild_setChild_ne (t : Trie) {s s2 : PlaySym} (c : Trie)
    (h : s2 ≠ s) : getChild (setChild t s c) s2 = getChild t s2 := by
  rw [getChild, setChild_children]
  exact alookup_aset_ne _ _ h

theorem insertWalk_data (t : Trie) (rest : List PlaySym) (es : List ℚ)
    (d : ℕ) : (insertWalk t rest es d).data = t.data := by
  cases d with
  | zero => cases rest <;> rfl
  | succ d =>
      cases rest with
      | nil => rfl
      | cons x tail => rw [insertWalk, setChild_data]

theorem findPath_nil (t : Trie) : findPath t [] = some t := rfl

theorem findPath_cons (t : Trie) (x : PlaySym) (p : List PlaySym) :
    findPath t (x :: p) =
      match getChild t x with
      | some c => findPath c p
      | none => none := rfl

theorem predictWalk_of_findPath {p : List PlaySym} :
    ∀ {t n : Trie}, findPath t p = some n → predictWalk t p = (n, p.length) := by
  induction p with
  | nil =>
      intro t n h
      rw [findPath_nil, Option.some.injEq] at h
      subst h
      rfl
  | cons x p ih =>
      intro t n h
      rw [findPath_cons] at h
      cases hc : getChild t x with
      | none => rw [hc] at h; exact absurd h (by simp)
      | some c =>
          rw [hc] at h
          have h2 : findPath c p = some n := h
          rw [predictWalk, hc]
          show ((predictWalk c p).1, (predictWalk c p).2 + 1) = (n, p.length + 1)
          rw [ih h2]

theorem bumpData_visits (nd : NodeData) (es : List ℚ) (tail : List PlaySym) :
    (bumpData nd es tail).totalVisits = nd.totalVisits + 1 := rfl

theorem bumpData_counts_le (nd : NodeData) (es : List ℚ)
    (tail : List PlaySym) (a : PlaySym) :
    alookupD nd.nextCounts a 0 ≤ alookupD (bumpData nd es tail).nextCounts a 0 := by
  cases tail with
  | nil => exact le_refl _
  | cons y tl =>
      show alookupD nd.nextCounts a 0 ≤
        alookupD (aset nd.nextCounts y (alookupD nd.nextCounts y 0 + 1)) a 0
      by_cases hy : a = y
      · subst hy
        rw [alookupD_aset_self]
        exact Nat.le_succ _
      · rw [alookupD_aset_ne _ _ _ hy]

theorem bumpData_counts_cons (nd : NodeData) (es : List ℚ) (y : PlaySym)
    (tl : List PlaySym) :
    alookupD (bumpData nd es (y :: tl)).nextCounts y 0 =
      alookupD nd.nextCounts y 0 + 1 := by
  show alookupD (aset nd.nextCounts y (alookupD nd.nextCounts y 0 + 1)) y 0 = _
  rw [alookupD_aset_self]

theorem mem_insDesc {q p : PlaySym × ℕ} :
    ∀ {l : List (PlaySym × ℕ)}, q ∈ insDesc p l ↔ q = p ∨ q ∈ l := by
  intro l
  induction l with
  | nil => simp [insDesc]
  | cons r t ih =>
      by_cases hr : r.2 ≤ p.2
      · simp [insDesc, hr]
      · simp only [insDesc, if_neg hr, List.mem_cons, ih]
        tauto

theorem mem_sortDesc {q : PlaySym × ℕ} :
    ∀ {l : List (PlaySym × ℕ)}, q ∈ sortDesc l ↔ q ∈ l := by
  intro l
  induction l with
  | nil => simp [sortDesc]
  | cons p t ih => simp [sortDesc, mem_insDesc, ih]

theorem length_insDesc (p : PlaySym × ℕ) :
    ∀ (l : List (PlaySym × ℕ)), (insDesc p l).length = l.length + 1 := by
  intro l
  induction l with
  | nil => rfl
  | cons r t ih =>
      by_cases hr : r.2 ≤ p.2
      · simp [insDesc, hr]
      · simp [insDesc, hr, ih]

theorem length_sortDesc :
    ∀ (l : List (PlaySym × ℕ)), (sortDesc l).length = l.length := by
  intro l
  induction l with
  | nil => rfl
  | cons p t ih => simp [sortDesc, length_insDesc, ih]

theorem insertWalk_zero (t : Trie) (rest : List PlaySym) (es : List ℚ) :
    insertWalk t rest es 0 = t := by
  cases rest <;> rfl

theorem insertWalk_nilr (t : Trie) (es : List ℚ) (d : ℕ) :
    insertWalk t [] es d = t := by
  cases d <;> rfl

theorem insertWalk_cons (t : Trie) (x : PlaySym) (tail : List PlaySym)
    (es : List ℚ) (d : ℕ) :
    insertWalk t (x :: tail) es (d + 1) =
      setChild t x
        (insertWalk
          (Trie.mk (bumpData ((getChild t x).getD emptyTrie).data es tail)
            ((getChild t x).getD emptyTrie).children)
          tail (es.drop 1) d) := rfl

theorem countD_mk (nd : NodeData) (cs : List (PlaySym × Trie)) (a : PlaySym) :
    countD (Trie.mk nd cs) a = alookupD nd.nextCounts a 0 := rfl

theorem insertWalk_creates :
    ∀ (p : List PlaySym) (t : Trie) (a : PlaySym) (rest2 : List PlaySym)
      (es : List ℚ) (d : ℕ), p ≠ [] → p.length ≤ d →
      ∃ n, findPath (insertWalk t (p ++ a :: rest2) es d) p = some n ∧
        1 ≤ countD n a ∧ 1 ≤ n.data.totalVisits := by
  intro p
  induction p with
  | nil => intro t a rest2 es d hne hlen; exact absurd rfl hne
  | cons x p ih =>
      intro t a rest2 es d hne hlen
      cases d with
      | zero => simp at hlen
      | succ d =>
          rw [List.cons_append, insertWalk_cons]
          have hfp :
              ∀ W : Trie, findPath (setChild t x W) (x :: p) = findPath W p := by
            intro W
            rw [findPath_cons, getChild_setChild_self]
          cases p with
          | nil =>
              refine ⟨_, hfp _, ?_, ?_⟩
              · rw [countD, insertWalk_data]
                show 1 ≤ alookupD
                  (bumpData ((getChild t x).getD emptyTrie).data es
                    ([] ++ a :: rest2)).nextCounts a 0
                rw [List.nil_append, bumpData_counts_cons]
                omega
              · rw [insertWalk_data]
                show 1 ≤ (bumpData ((getChild t x).getD emptyTrie).data es
                  ([] ++ a :: rest2)).totalVisits
                rw [bumpData_visits]
                omega
          | cons y p2 =>
              have hlen2 : (y :: p2).length ≤ d := by
                simp only [List.length_cons] at hlen ⊢
                omega
              obtain ⟨n, hn, hcnt, hvis⟩ :=
                ih (Trie.mk
                      (bumpData ((getChild t x).getD emptyTrie).data es
                        ((y :: p2) ++ a :: rest2))
                      ((getChild t x).getD emptyTrie).children)
                  a rest2 (es.drop 1) d (by simp) hlen2
              exact ⟨n, by rw [hfp, hn], hcnt, hvis⟩

theorem findPath_bump (c : Trie) (es : List ℚ) (tl : List PlaySym)
    {p : List PlaySym} {n : Trie} (h : findPath c p = some n) :
    ∃ m, findPath (Trie.mk (bumpData c.data es tl) c.children) p = some m ∧
      (∀ a, countD n a ≤ countD m a) ∧
      n.data.totalVisits ≤ m.data.totalVisits := by
  cases p with
  | nil =>
      rw [findPath_nil, Option.some.injEq] at h
      subst h
      refine ⟨_, findPath_nil _, ?_, ?_⟩
      · intro a
        rw [countD_mk, countD]
        exact bumpData_counts_le _ _ _ _
      · simp only [Trie.data, bumpData_visits]
        omega
  | cons z p2 =>
      have hg : getChild (Trie.mk (bumpData c.data es tl) c.children) z =
          getChild c z := rfl
      rw [findPath_cons] at h ⊢
      rw [hg]
      exact ⟨n, h, fun a => le_refl _, le_refl _⟩

theorem insertWalk_mono :
    ∀ (p : List PlaySym) (t n : Trie) (rest : List PlaySym) (es : List ℚ)
      (d : ℕ), findPath t p = some n →
      ∃ n2, findPath (insertWalk t rest es d) p = some n2 ∧
        (∀ a, countD n a ≤ countD n2 a) ∧
        n.data.totalVisits ≤ n2.data.totalVisits := by
  intro p
  induction p with
  | nil =>
      intro t n rest es d h
      rw [findPath_nil, Option.some.injEq] at h
      subst h
      refine ⟨insertWalk t rest es d, findPath_nil _, ?_, ?_⟩
      · intro a
        rw [countD, countD, insertWalk_data]
      · rw [insertWalk_data]
  | cons x p ih =>
      intro t n rest es d h
      rw [findPath_cons] at h
      cases hc : getChild t x with
      | none => rw [hc] at h; exact absurd h (by simp)
      | some c =>
          rw [hc] at h
          have h2 : findPath c p = some n := h
          cases d with
          | zero => exact ⟨n, by rw [insertWalk_zero, findPath_cons, hc]; exact h2,
              fun a => le_refl _, le_refl _⟩
          | succ d =>
              cases rest with
              | nil => exact ⟨n, by rw [insertWalk_nilr, findPath_cons, hc]; exact h2,
                  fun a => le_refl _, le_refl _⟩
              | cons y tail =>
                  rw [insertWalk_cons]
                  by_cases hxy : x = y
                  · subst hxy
                    have hc0 : (getChild t x).getD emptyTrie = c := by
                      rw [hc]
                      rfl
                    rw [hc0]
                    obtain ⟨m, hm, hmc, hmv⟩ := findPath_bump c es tail h2
                    obtain ⟨n2, hn2, hn2c, hn2v⟩ :=
                      ih _ m tail (es.drop 1) d hm
                    refine ⟨n2, ?_, fun a => le_trans (hmc a) (hn2c a),
                      le_trans hmv hn2v⟩
                    rw [findPath_cons, getChild_setChild_self]
                    exact hn2
                  · refine ⟨n, ?_, fun a => le_refl _, le_refl _⟩
                    rw [findPath_cons, getChild_setChild_ne _ _ hxy, hc]
                    exact h2

theorem insertAllSuffixes_nil (t : Trie) (es : List ℚ) (d : ℕ) :
    insertAllSuffixes t [] es d = t := rfl

theorem insertAllSuffixes_cons (t : Trie) (x : PlaySym) (tail : List PlaySym)
    (es : List ℚ) (d : ℕ) :
    insertAllSuffixes t (x :: tail) es d =
      insertAllSuffixes (insertWalk t (x :: tail) es d) tail (es.drop 1) d := rfl

theorem insertAllSuffixes_mono :
    ∀ (xs : List PlaySym) (t n : Trie) (es : List ℚ) (d : ℕ)
      (p : List PlaySym), findPath t p = some n →
      ∃ n2, findPath (insertAllSuffixes t xs es d) p = some n2 ∧
        (∀ a, countD n a ≤ countD n2 a) ∧
        n.data.totalVisits ≤ n2.data.totalVisits := by
  intro xs
  induction xs with
  | nil =>
      intro t n es d p h
      exact ⟨n, h, fun a => le_refl _, le_refl _⟩
  | cons x tail ih =>
      intro t n es d p h
      rw [insertAllSuffixes_cons]
      obtain ⟨m, hm, hmc, hmv⟩ := insertWalk_mono p t n (x :: tail) es d h
      obtain ⟨n2, hn2, hn2c, hn2v⟩ := ih _ m (es.drop 1) d p hm
      exact ⟨n2, hn2, fun a => le_trans (hmc a) (hn2c a), le_trans hmv hn2v⟩

theorem insertAllSuffixes_creates :
    ∀ (xs : List PlaySym) (t : Trie) (es : List ℚ) (d : ℕ) (i : ℕ)
      (p : List PlaySym) (a : PlaySym) (rest2 : List PlaySym),
      xs.drop i = p ++ a :: rest2 → p ≠ [] → p.length ≤ d →
      ∃ n, findPath (insertAllSuffixes t xs es d) p = some n ∧
        1 ≤ countD n a ∧ 1 ≤ n.data.totalVisits := by
  intro xs
  induction xs with
  | nil =>
      intro t es d i p a rest2 hdrop hne hlen
      rw [List.drop_nil] at hdrop
      exact absurd hdrop.symm (List.append_ne_nil_of_right_ne_nil _ (by simp))
  | cons x tail ih =>
      intro t es d i p a rest2 hdrop hne hlen
      cases i with
      | zero =>
          rw [List.drop_zero] at hdrop
          rw [insertAllSuffixes_cons, hdrop]
          obtain ⟨n0, hn0, h1, h2⟩ :=
            insertWalk_creates p t a rest2 es d hne hlen
          obtain ⟨n, hn, hc, hv⟩ :=
            insertAllSuffixes_mono tail _ n0 (es.drop 1) d p hn0
          exact ⟨n, hn, le_trans h1 (hc a), le_trans h2 hv⟩
      | succ i =>
          rw [List.drop_succ_cons] at hdrop
          rw [insertAllSuffixes_cons]
          exact ih _ (es.drop 1) d i p a rest2 hdrop hne hlen

theorem TrieWF.nodupKeys {t : Trie} (h : TrieWF t) :
    (t.data.nextCounts.map Prod.fst).Nodup := by
  cases h
  assumption

theorem TrieWF.posCounts {t : Trie} (h : TrieWF t) :
    ∀ q ∈ t.data.nextCounts, 1 ≤ q.2 := by
  cases h
  assumption

theorem TrieWF.child {t : Trie} (h : TrieWF t) {s : PlaySym} {c : Trie}
    (hc : getChild t s = some c) : TrieWF c := by
  cases h with
  | mk nd cs h1 h2 h3 => exact h3 _ (alookup_mem hc)

theorem TrieWF.childMem {t : Trie} (h : TrieWF t) :
    ∀ q ∈ t.children, TrieWF q.2 := by
  cases h
  assumption

theorem trieWF_empty : TrieWF emptyTrie := by
  refine TrieWF.mk _ _ ?_ ?_ ?_ <;> simp [emptyTrie]

theorem bumpData_WF {nd : NodeData} (es : List ℚ) (tail : List PlaySym)
    (h1 : (nd.nextCounts.map Prod.fst).Nodup)
    (h2 : ∀ q ∈ nd.nextCounts, 1 ≤ q.2) :
    ((bumpData nd es tail).nextCounts.map Prod.fst).Nodup ∧
      ∀ q ∈ (bumpData nd es tail).nextCounts, 1 ≤ q.2 := by
  cases tail with
  | nil => exact ⟨h1, h2⟩
  | cons y tl =>
      constructor
      · exact aset_keys_nodup _ _ h1
      · intro q hq
        rcases aset_mem hq with hh | hh
        · omega
        · exact h2 q hh

theorem insertWalk_WF :
    ∀ (rest : List PlaySym) (t : Trie) (es : List ℚ) (d : ℕ),
      TrieWF t → TrieWF (insertWalk t rest es d) := by
  intro rest
  induction rest with
  | nil => intro t es d h; rw [insertWalk_nilr]; exact h
  | cons x tail ih =>
      intro t es d h
      cases d with
      | zero => rw [insertWalk_zero]; exact h
      | succ d =>
          rw [insertWalk_cons]
          have hc0 : TrieWF ((getChild t x).getD emptyTrie) := by
            cases hc : getChild t x with
            | none => exact trieWF_empty
            | some c => exact h.child hc
          have hc1 : TrieWF (Trie.mk
              (bumpData ((getChild t x).getD emptyTrie).data es tail)
              ((getChild t x).getD emptyTrie).children) := by
            obtain ⟨hn1, hn2⟩ :=
              bumpData_WF es tail hc0.nodupKeys hc0.posCounts
            exact TrieWF.mk _ _ hn1 hn2 fun q hq => hc0.childMem q hq
          have hW := ih _ (es.drop 1) d hc1
          cases h with
          | mk nd cs g1 g2 g3 =>
              refine TrieWF.mk _ _ g1 g2 ?_
              intro q hq
              rcases aset_mem hq with hh | hh
              · rw [hh.2]; exact hW
              · exact g3 q hh

theorem insertAllSuffixes_WF :
    ∀ (xs : List PlaySym) (t : Trie) (es : List ℚ) (d : ℕ),
      TrieWF t → TrieWF (insertAllSuffixes t xs es d) := by
  intro xs
  induction xs with
  | nil => intro t es d h; exact h
  | cons x tail ih =>
      intro t es d h
      rw [insertAllSuffixes_cons]
      exact ih _ (es.drop 1) d (insertWalk_WF _ t es d h)

theorem findPath_WF :
    ∀ (p : List PlaySym) (t n : Trie), findPath t p = some n →
      TrieWF t → TrieWF n := by
  intro p
  induction p with
  | nil =>
      intro t n h hw
      rw [findPath_nil, Option.some.injEq] at h
      subst h
      exact hw
  | cons x p ih =>
      intro t n h hw
      rw [findPath_cons] at h
      cases hc : getChild t x with
      | none => rw [hc] at h; exact absurd h (by simp)
      | some c =>
          rw [hc] at h
          exact ih c n h (hw.child hc)

theorem predictWalk_WF :
    ∀ (ys : List PlaySym) (t : Trie), TrieWF t →
      TrieWF (predictWalk t ys).1 := by
  intro ys
  induction ys with
  | nil => intro t h; exact h
  | cons x tail ih =>
      intro t h
      rw [predictWalk]
      cases hc : getChild t x with
      | none => exact h
      | some c => exact ih c (h.child hc)

theorem get_next_play_probs_pos {t : Trie} (h : TrieWF t) (k : ℕ) :
    ∀ q ∈ get_next_play_probs t k, 0 < q.2 := by
  intro q hq
  rw [get_next_play_probs] at hq
  by_cases hv : t.data.totalVisits = 0
  · simp [hv] at hq
  · rw [if_neg hv] at hq
    rcases List.mem_map.mp hq with ⟨r, hr, hrq⟩
    have hr2 : r ∈ t.data.nextCounts :=
      mem_sortDesc.mp (List.mem_of_mem_take hr)
    have hpos : 1 ≤ r.2 := h.posCounts r hr2
    rw [← hrq]
    have h1 : (0 : ℚ) < (r.2 : ℚ) := by
      exact_mod_cast Nat.lt_of_lt_of_le Nat.zero_lt_one hpos
    have h2 : (0 : ℚ) < (t.data.totalVisits : ℚ) := by
      exact_mod_cast Nat.pos_of_ne_zero hv
    exact div_pos h1 h2

theorem nextCounts_length_le {t : Trie} (h : TrieWF t) :
    t.data.nextCounts.length ≤ 3 := by
  have h1 := h.nodupKeys.length_le_card
  rw [List.length_map] at h1
  have h2 : Fintype.card PlaySym = 3 := by decide
  omega

theorem get_next_play_probs_mem {t : Trie} (h : TrieWF t) {a : PlaySym}
    {k : ℕ} (hk : 3 ≤ k) (hc : 1 ≤ countD t a)
    (hv : 1 ≤ t.data.totalVisits) :
    ∃ q : ℚ, (a, q) ∈ get_next_play_probs t k ∧ 0 < q := by
  have hv0 : t.data.totalVisits ≠ 0 := by omega
  have hmem : (a, countD t a) ∈ t.data.nextCounts := by
    rw [countD] at hc ⊢
    exact alookupD_mem (by omega)
  have hlen : (sortDesc t.data.nextCounts).length ≤ k := by
    rw [length_sortDesc]
    have := nextCounts_length_le h
    omega
  refine ⟨(countD t a : ℚ) / (t.data.totalVisits : ℚ), ?_, ?_⟩
  · rw [get_next_play_probs, if_neg hv0, List.take_of_length_le hlen]
    exact List.mem_map_of_mem _ (mem_sortDesc.mpr hmem)
  · have h1 : (0 : ℚ) < (countD t a : ℚ) := by
      exact_mod_cast Nat.lt_of_lt_of_le Nat.zero_lt_one hc
    have h2 : (0 : ℚ) < (t.data.totalVisits : ℚ) := by
      exact_mod_cast hv
    exact div_pos h1 h2

/-- C8: inserting any non-empty symbol sequence into a fresh trie and then
querying each proper prefix of it returns a non-empty distribution in which
the symbol that actually followed that prefix has positive probability. -/
theorem c8_trie_roundtrip (maxD : ℕ) (hd : 1 ≤ maxD) (xs : List PlaySym)
    (j : ℕ) (h1 : 1 ≤ j) (hj : j < xs.length) :
    (pstPredict (insert_sequence (pstEmpty maxD) xs []) (xs.take j) 5).1 ≠ [] ∧
    ∃ q : ℚ, (xs.get ⟨j, hj⟩, q) ∈
      (pstPredict (insert_sequence (pstEmpty maxD) xs []) (xs.take j) 5).1 ∧
      0 < q := by
  have hEmpty : xs.isEmpty = false := by
    cases xs with
    | nil => simp at hj
    | cons a l => rfl
  have hroot : (insert_sequence (pstEmpty maxD) xs []).root =
      insertAllSuffixes emptyTrie xs [] maxD := by
    simp [insert_sequence, hEmpty, pstEmpty]
  have hdepth : (insert_sequence (pstEmpty maxD) xs []).maxDepth = maxD := by
    simp [insert_sequence, hEmpty, pstEmpty]
  have hlen_take : (xs.take j).length = j := by
    rw [List.length_take]
    omega
  have hwin : recentWindow maxD (xs.take j) =
      (xs.drop (j - maxD)).take (j - (j - maxD)) := by
    rw [recentWindow, if_neg (by omega : ¬maxD = 0), hlen_take, List.drop_take]
  have hsw : (j - maxD) + (j - (j - maxD)) = j := by omega
  have hdecomp : xs.drop (j - maxD) =
      (xs.drop (j - maxD)).take (j - (j - maxD)) ++
        xs.get ⟨j, hj⟩ :: xs.drop (j + 1) := by
    conv_lhs => rw [← List.take_append_drop (j - (j - maxD)) (xs.drop (j - maxD))]
    congr 1
    rw [List.drop_drop, hsw, List.drop_eq_getElem_cons hj]
    simp [List.get_eq_getElem]
  have hplen : ((xs.drop (j - maxD)).take (j - (j - maxD))).length =
      j - (j - maxD) := by
    rw [List.length_take, List.length_drop]
    omega
  have hpne : (xs.drop (j - maxD)).take (j - (j - maxD)) ≠ [] := by
    intro hcon
    rw [hcon] at hplen
    simp at hplen
    omega
  have hple : ((xs.drop (j - maxD)).take (j - (j - maxD))).length ≤ maxD := by
    rw [hplen]
    omega
  obtain ⟨nd, hfind, hcnt, hvis⟩ := insertAllSuffixes_creates xs emptyTrie []
    maxD (j - maxD) _ _ _ hdecomp hpne hple
  have hWF := insertAllSuffixes_WF xs emptyTrie [] maxD trieWF_empty
  have hndWF := findPath_WF _ _ _ hfind hWF
  obtain ⟨q, hqmem, hqpos⟩ :=
    get_next_play_probs_mem hndWF (by omega : (3 : ℕ) ≤ 5) hcnt hvis
  have hfinal : (pstPredict (insert_sequence (pstEmpty maxD) xs [])
      (xs.take j) 5).1 = get_next_play_probs nd 5 := by
    show get_next_play_probs
      (predictWalk (insert_sequence (pstEmpty maxD) xs []).root
        (recentWindow (insert_sequence (pstEmpty maxD) xs []).maxDepth
          (xs.take j))).1 5 = _
    rw [hroot, hdepth, hwin, predictWalk_of_findPath hfind]
  constructor
  · rw [hfinal]
    exact List.ne_nil_of_mem hqmem
  · exact ⟨q, by rw [hfinal]; exact hqmem, hqpos⟩

theorem list_sum_div (l : List (String × ℚ)) (c : ℚ) :
    (l.map (fun p => p.2 / c)).sum = (l.map Prod.snd).sum / c := by
  induction l with
  | nil => simp
  | cons p t ih => simp [ih, add_div]

theorem normalizeAgg_sum {acc : List (String × ℚ)}
    (h : 0 < (acc.map Prod.snd).sum) :
    ((normalizeAgg acc).map Prod.snd).sum = 1 := by
  rw [normalizeAgg, if_pos h, List.map_map]
  have heq : (Prod.snd ∘ fun p : String × ℚ =>
      (p.1, p.2 / (acc.map Prod.snd).sum)) =
      fun p : String × ℚ => p.2 / (acc.map Prod.snd).sum := rfl
  rw [heq, list_sum_div]
  exact div_self (ne_of_gt h)

theorem aset_bump_sum {κ : Type} [DecidableEq κ] (l : List (κ × ℚ)) (k : κ)
    (v : ℚ) :
    ((aset l k (alookupD l k 0 + v)).map Prod.snd).sum =
      (l.map Prod.snd).sum + v := by
  induction l with
  | nil => simp [aset, alookupD, alookup]
  | cons p t ih =>
      obtain ⟨pk, pv⟩ := p
      by_cases hp : pk = k
      · subst hp
        have hl : alookupD ((pk, pv) :: t) pk 0 = pv := by
          simp [alookupD, alookup]
        rw [hl]
        have haset : aset ((pk, pv) :: t) pk (pv + v) = (pk, pv + v) :: t := by
          simp [aset]
        rw [haset]
        simp only [List.map_cons, List.sum_cons]
        ring
      · have hl : alookupD ((pk, pv) :: t) k 0 = alookupD t k 0 := by
          simp [alookupD, alookup, hp]
        simp only [aset, if_neg hp, hl, List.map_cons, List.sum_cons, ih]
        ring

theorem agg_foldl_sum (preds : List (PlaySym × ℚ)) :
    ∀ acc : List (String × ℚ),
      ((preds.foldl
        (fun a p => aset a p.1.code (alookupD a p.1.code 0 + p.2)) acc).map
          Prod.snd).sum = (acc.map Prod.snd).sum + (preds.map Prod.snd).sum := by
  induction preds with
  | nil => intro acc; simp
  | cons p t ih =>
      intro acc
      simp only [List.foldl_cons, List.map_cons, List.sum_cons, ih,
        aset_bump_sum]
      ring

theorem aggregate_predictions_nil : aggregate_predictions [] = [] := by
  simp [aggregate_predictions, normalizeAgg]

theorem aggregate_predictions_sum (preds : List (PlaySym × ℚ))
    (hne : preds ≠ []) (hpos : ∀ q ∈ preds, 0 < q.2) :
    ((aggregate_predictions preds).map Prod.snd).sum = 1 := by
  rw [aggregate_predictions]
  apply normalizeAgg_sum
  rw [agg_foldl_sum]
  simp only [List.map_nil, List.sum_nil, zero_add]
  apply List.sum_pos
  · intro x hx
    rcases List.mem_map.mp hx with ⟨q, hq, hqx⟩
    exact hqx ▸ hpos q hq
  · simp [hne]

theorem aggregate_pst_sum {t : PST} (hWF : TrieWF t.root)
    (recents : List PlaySym) (kk : ℕ)
    (hne : aggregate_predictions (pstPredict t recents kk).1 ≠ []) :
    ((aggregate_predictions (pstPredict t recents kk).1).map Prod.snd).sum
      = 1 := by
  have hpreds : (pstPredict t recents kk).1 ≠ [] := by
    intro hcon
    apply hne
    rw [hcon, aggregate_predictions_nil]
  apply aggregate_predictions_sum _ hpreds
  intro q hq
  have hnodeWF : TrieWF (predictWalk t.root
      (recentWindow t.maxDepth recents)).1 := predictWalk_WF _ _ hWF
  have hpp : (pstPredict t recents kk).1 = get_next_play_probs
      (predictWalk t.root (recentWindow t.maxDepth recents)).1 kk := rfl
  rw [hpp] at hq
  exact get_next_play_probs_pos hnodeWF kk q hq

theorem insert_sequence_root_WF {t : PST} (h : TrieWF t.root)
    (xs : List PlaySym) (es : List ℚ) :
    TrieWF (insert_sequence t xs es).root := by
  rw [insert_sequence]
  by_cases hx : xs.isEmpty
  · rw [if_pos hx]
    exact h
  · rw [if_neg hx]
    exact insertAllSuffixes_WF xs t.root es t.maxDepth h

theorem mkState_StateWF (cfg : Config) : StateWF (mkState cfg) := by
  constructor
  · intro q hq
    rw [mkState] at hq
    simp only at hq
    by_cases hf : (match cfg.features with
        | none => if cfg.use_score = true then ["score"] else []
        | some fs => fs).isEmpty
    · rw [if_pos hf] at hq
      rcases List.mem_map.mp hq with ⟨g, hg, hgq⟩
      rw [← hgq]
      exact trieWF_empty
    · rw [if_neg hf] at hq
      simp at hq
  · rfl

theorem mkState_CountsInv (cfg : Config) : CountsInv (mkState cfg) := by
  intro q hq
  have hc : (mkState cfg).situation_counts = [] := rfl
  rw [hc] at hq
  simp at hq

theorem countsInv_nonneg {st : State} (h : CountsInv st) (g : GroupKey) :
    0 ≤ alookupD st.situation_counts g 0 := by
  cases hl : alookup st.situation_counts g with
  | none => rw [alookupD, hl]; exact le_refl _
  | some v =>
      rw [alookupD, hl]
      exact (h (g, v) (alookup_mem hl)).2

theorem addToBucket_StateWF {st : State}
    (h : ∀ q ∈ st.tries, TrieWF q.2.root) (g : GroupKey)
    (plays : List PlaySym) (es : List ℚ) :
    ∀ q ∈ (addToBucket st g plays es).tries, TrieWF q.2.root := by
  intro q hq
  rw [addToBucket] at hq
  simp only at hq
  rcases aset_mem hq with hh | hh
  · rw [hh.2]
    apply insert_sequence_root_WF _ plays es
    cases hl : alookup st.tries g with
    | none => simp [hl, pstEmpty]; exact trieWF_empty
    | some t0 =>
        simp only [hl, Option.getD_some]
        exact h (g, t0) (alookup_mem hl)
  · exact h q hh

theorem addToBucket_CountsInv {st : State} (h : CountsInv st) (g : GroupKey)
    (plays : List PlaySym) (es : List ℚ) :
    CountsInv (addToBucket st g plays es) := by
  intro q hq
  rw [addToBucket] at hq
  simp only at hq
  rcases aset_mem hq with hh | hh
  · constructor
    · rw [addToBucket]
      simp only
      rw [hh.1]
      rw [alookup_aset_self]
      rfl
    · rw [hh.2]
      have := countsInv_nonneg h g
      omega
  · obtain ⟨h1, h2⟩ := h q hh
    constructor
    · rw [addToBucket]
      simp only
      exact alookup_isSome_aset _ _ h1
    · exact h2

theorem addToBucket_league (st : State) (g : GroupKey) (plays : List PlaySym)
    (es : List ℚ) :
    (addToBucket st g plays es).league_average = st.league_average := rfl

theorem insertStep_inv {st : State}
    (h : (∀ q ∈ st.tries, TrieWF q.2.root) ∧ CountsInv st ∧
      st.league_average = [("P", 0.58), ("R", 0.42)])
    (play_types : List PlaySym) (situations : List (ℤ × ℤ × ℤ))
    (epas : Option (List ℚ))
    (score_diffs team_pass_rates game_seconds_remaining : Option (List ℚ))
    (posteam_types : Option (List String)) (i : ℕ) :
    (∀ q ∈ (insertStep play_types situations epas score_diffs team_pass_rates
        game_seconds_remaining posteam_types st i).tries, TrieWF q.2.root) ∧
      CountsInv (insertStep play_types situations epas score_diffs
        team_pass_rates game_seconds_remaining posteam_types st i) ∧
      (insertStep play_types situations epas score_diffs team_pass_rates
        game_seconds_remaining posteam_types st i).league_average =
        [("P", 0.58), ("R", 0.42)] := by
  obtain ⟨h1, h2, h3⟩ := h
  simp only [insertStep]
  by_cases hc : (!st.features.isEmpty && st.use_hierarchical_fallback) = true
  · rw [if_pos hc]
    refine ⟨addToBucket_StateWF (addToBucket_StateWF h1 _ _ _) _ _ _,
      addToBucket_CountsInv (addToBucket_CountsInv h2 _ _ _) _ _ _, ?_⟩
    rw [addToBucket_league, addToBucket_league]
    exact h3
  · rw [if_neg hc]
    refine ⟨addToBucket_StateWF h1 _ _ _,
      addToBucket_CountsInv h2 _ _ _, ?_⟩
    rw [addToBucket_league]
    exact h3

theorem foldl_inv {α : Type} (P : State → Prop) (f : State → α → State)
    (hf : ∀ s a, P s → P (f s a)) :
    ∀ (l : List α) (s : State), P s → P (l.foldl f s) := by
  intro l
  induction l with
  | nil => intro s hs; exact hs
  | cons a t ih =>
      intro s hs
      rw [List.foldl_cons]
      exact ih _ (hf s a hs)

theorem insert_drive_inv {st st' : State}
    (h : (∀ q ∈ st.tries, TrieWF q.2.root) ∧ CountsInv st ∧
      st.league_average = [("P", 0.58), ("R", 0.42)])
    {play_types : List PlaySym} {situations : List (ℤ × ℤ × ℤ)}
    {epas : Option (List ℚ)}
    {score_diffs team_pass_rates game_seconds_remaining : Option (List ℚ)}
    {posteam_types : Option (List String)}
    (heq : insert_drive st play_types situations epas score_diffs
      team_pass_rates game_seconds_remaining posteam_types = Except.ok st') :
    (∀ q ∈ st'.tries, TrieWF q.2.root) ∧ CountsInv st' ∧
      st'.league_average = [("P", 0.58), ("R", 0.42)] := by
  rw [insert_drive] at heq
  split_ifs at heq
  rw [Except.ok.injEq] at heq
  subst heq
  exact foldl_inv
    (fun s => (∀ q ∈ s.tries, TrieWF q.2.root) ∧ CountsInv s ∧
      s.league_average = [("P", 0.58), ("R", 0.42)])
    _ (fun s i hs => insertStep_inv hs play_types situations
      epas score_diffs team_pass_rates game_seconds_remaining posteam_types i)
    _ st h

theorem reachable_inv {st : State} (h : Reachable st) :
    (∀ q ∈ st.tries, TrieWF q.2.root) ∧ CountsInv st ∧
      st.league_average = [("P", 0.58), ("R", 0.42)] := by
  induction h with
  | init cfg =>
      obtain ⟨w1, w2⟩ := mkState_StateWF cfg
      exact ⟨w1, mkState_CountsInv cfg, w2⟩
  | step pts sits epas sd tpr gsr pt hr heq ih =>
      exact insert_drive_inv ih heq

theorem league_sum : (([("P", (0.58 : ℚ)), ("R", 0.42)]).map Prod.snd).sum = 1 := by
  simp
  norm_num

theorem predictLevel2_sum {st : State}
    (hWF : ∀ q ∈ st.tries, TrieWF q.2.root)
    (hLA : st.league_average = [("P", 0.58), ("R", 0.42)])
    (d y f : ℤ) (recents : List PlaySym) :
    ((predictLevel2 st d y f recents).1.map Prod.snd).sum = 1 := by
  simp only [predictLevel2]
  cases hb : alookup st.tries (GroupKey.base (get_situation_group d y f)) with
  | none =>
      simp only [hLA]
      exact league_sum
  | some tr =>
      simp only
      by_cases hs : has_sufficient_data st
          (GroupKey.base (get_situation_group d y f)) = true
      · rw [if_pos hs]
        by_cases ha : (aggregate_predictions
            (pstPredict tr recents 10).1).isEmpty = true
        · rw [if_pos ha]
          simp only [hLA]
          exact league_sum
        · rw [if_neg ha]
          exact aggregate_pst_sum
            (hWF (GroupKey.base (get_situation_group d y f), tr)
              (alookup_mem hb)) recents 10
            (by simpa using ha)
      · rw [if_neg hs]
        simp only [hLA]
        exact league_sum

theorem predict_sum_or_empty (st : State)
    (hWF : ∀ q ∈ st.tries, TrieWF q.2.root)
    (hLA : st.league_average = [("P", 0.58), ("R", 0.42)])
    (situation : ℤ × ℤ × ℤ) (recents : List PlaySym) (k : ℕ)
    (sd tpr gsr : Option ℚ) (pt : Option String) :
    ((predict st situation recents k sd tpr gsr pt).1.map Prod.snd).sum = 1 ∨
      (predict st situation recents k sd tpr gsr pt).1 = [] := by
  simp only [predict]
  by_cases hfb : st.use_hierarchical_fallback = true
  · rw [if_pos hfb]
    cases hsp : alookup st.tries (specific_situation_group st situation.1
        situation.2.1 situation.2.2 sd tpr gsr pt) with
    | none =>
        simp only
        exact Or.inl (predictLevel2_sum hWF hLA _ _ _ recents)
    | some tr =>
        simp only
        by_cases hs : has_sufficient_data st (specific_situation_group st
            situation.1 situation.2.1 situation.2.2 sd tpr gsr pt) = true
        · rw [if_pos hs]
          by_cases ha : (aggregate_predictions
              (pstPredict tr recents 10).1).isEmpty = true
          · rw [if_pos ha]
            exact Or.inl (predictLevel2_sum hWF hLA _ _ _ recents)
          · rw [if_neg ha]
            exact Or.inl (aggregate_pst_sum
              (hWF (specific_situation_group st situation.1 situation.2.1
                  situation.2.2 sd tpr gsr pt, tr) (alookup_mem hsp))
              recents 10 (by simpa using ha))
        · rw [if_neg hs]
          exact Or.inl (predictLevel2_sum hWF hLA _ _ _ recents)
  · rw [if_neg hfb]
    cases hsp : alookup st.tries (specific_situation_group st situation.1
        situation.2.1 situation.2.2 sd tpr gsr pt) with
    | none => exact Or.inr rfl
    | some tr =>
        simp only
        by_cases ha : aggregate_predictions (pstPredict tr recents 10).1 = []
        · exact Or.inr ha
        · exact Or.inl (aggregate_pst_sum
            (hWF (specific_situation_group st situation.1 situation.2.1
                situation.2.2 sd tpr gsr pt, tr) (alookup_mem hsp))
            recents 10 ha)

/-- C6: every non-empty distribution returned by `predict` on a reachable
predictor state has probabilities summing to exactly 1 (hence within the
1e-6 tolerance the spec asks for). -/
theorem c6_probability_normalization (st : State) (h : Reachable st)
    (situation : ℤ × ℤ × ℤ) (recents : List PlaySym) (k : ℕ)
    (sd tpr gsr : Option ℚ) (pt : Option String)
    (hne : (predict st situation recents k sd tpr gsr pt).1 ≠ []) :
    ((predict st situation recents k sd tpr gsr pt).1.map Prod.snd).sum
      = 1 := by
  obtain ⟨hWF, hCI, hLA⟩ := reachable_inv h
  rcases predict_sum_or_empty st hWF hLA situation recents k sd tpr gsr pt with
    hh | hh
  · exact hh
  · exact absurd hh hne

theorem predictLevel2_cases (st : State) (d y f : ℤ)
    (recents : List PlaySym) :
    (∃ tr, alookup st.tries (GroupKey.base (get_situation_group d y f)) =
        some tr ∧
      predictLevel2 st d y f recents =
        (aggregate_predictions (pstPredict tr recents 10).1,
          (pstPredict tr recents 10).2)) ∨
    predictLevel2 st d y f recents = (st.league_average, 0) := by
  simp only [predictLevel2]
  cases hb : alookup st.tries (GroupKey.base (get_situation_group d y f)) with
  | none => exact Or.inr rfl
  | some tr =>
      simp only
      by_cases hs : has_sufficient_data st
          (GroupKey.base (get_situation_group d y f)) = true
      · rw [if_pos hs]
        by_cases ha : (aggregate_predictions
            (pstPredict tr recents 10).1).isEmpty = true
        · rw [if_pos ha]
          exact Or.inr rfl
        · rw [if_neg ha]
          exact Or.inl ⟨tr, rfl, rfl⟩
      · rw [if_neg hs]
        exact Or.inr rfl

/-- C2: whenever hierarchical fallback is enabled and the specific bucket's
insertion count is below the threshold, `predict` returns either the
canonical bucket's aggregated distribution or the league average — never the
under-populated specific bucket's own distribution. -/
theorem c2_fallback_ordering (st : State) (situation : ℤ × ℤ × ℤ)
    (recents : List PlaySym) (k : ℕ) (sd tpr gsr : Option ℚ)
    (pt : Option String) (hfb : st.use_hierarchical_fallback = true)
    (hcount : alookupD st.situation_counts
      (specific_situation_group st situation.1 situation.2.1 situation.2.2
        sd tpr gsr pt) 0 < st.min_examples_threshold) :
    (∃ tr, alookup st.tries (GroupKey.base (get_situation_group situation.1
        situation.2.1 situation.2.2)) = some tr ∧
      predict st situation recents k sd tpr gsr pt =
        (aggregate_predictions (pstPredict tr recents 10).1,
          (pstPredict tr recents 10).2)) ∨
    predict st situation recents k sd tpr gsr pt =
      (st.league_average, 0) := by
  have hs : has_sufficient_data st (specific_situation_group st situation.1
      situation.2.1 situation.2.2 sd tpr gsr pt) = false := by
    rw [has_sufficient_data]
    exact decide_eq_false (by omega)
  simp only [predict, if_pos hfb]
  cases hsp : alookup st.tries (specific_situation_group st situation.1
      situation.2.1 situation.2.2 sd tpr gsr pt) with
  | none =>
      simp only
      exact predictLevel2_cases st situation.1 situation.2.1 situation.2.2
        recents
  | some tr =>
      simp only [hs, Bool.false_eq_true, if_false]
      exact predictLevel2_cases st situation.1 situation.2.1 situation.2.2
        recents

theorem c2_fallback_ordering_witness :
    st0d.use_hierarchical_fallback = true ∧
    alookupD st0d.situation_counts
      (specific_situation_group st0d 3 2 65 none none none none) 0 <
      st0d.min_examples_threshold ∧
    ((∃ tr, alookup st0d.tries (GroupKey.base (get_situation_group 3 2 65)) =
        some tr ∧
      predict st0d (3, 2, 65) [] 5 none none none none =
        (aggregate_predictions (pstPredict tr [] 10).1,
          (pstPredict tr [] 10).2)) ∨
    predict st0d (3, 2, 65) [] 5 none none none none =
      (st0d.league_average, 0)) :=
  ⟨rfl, by decide,
    c2_fallback_ordering st0d (3, 2, 65) [] 5 none none none none rfl
      (by decide)⟩

/-- C3: precedence of the situation classifier — goal-line before red-zone
before fourth-down before third-down-by-distance before
early-down-by-distance, with the concrete consequence that (3, 2, 3) is
goal-line. -/
theorem c3_situation_precedence (down ydstogo yardline_100 : ℤ) :
    (yardline_100 ≤ 5 →
      get_situation_group down ydstogo yardline_100 = .goal_line) ∧
    (5 < yardline_100 → yardline_100 ≤ 20 →
      get_situation_group down ydstogo yardline_100 = .red_zone) ∧
    (20 < yardline_100 → down = 4 →
      get_situation_group down ydstogo yardline_100 = .fourth_down) ∧
    (20 < yardline_100 → down = 3 →
      (ydstogo ≤ 3 →
        get_situation_group down ydstogo yardline_100 = .third_short) ∧
      (3 < ydstogo → ydstogo ≤ 7 →
        get_situation_group down ydstogo yardline_100 = .third_medium) ∧
      (7 < ydstogo →
        get_situation_group down ydstogo yardline_100 = .third_long)) ∧
    (20 < yardline_100 → (down = 1 ∨ down = 2) →
      (ydstogo ≤ 3 →
        get_situation_group down ydstogo yardline_100 = .early_down_short) ∧
      (3 < ydstogo → ydstogo ≤ 7 →
        get_situation_group down ydstogo yardline_100 = .early_down_medium) ∧
      (7 < ydstogo →
        get_situation_group down ydstogo yardline_100 = .early_down_long)) ∧
    get_situation_group 3 2 3 = .goal_line := by
  refine ⟨?_, ?_, ?_, ?_, ?_, by decide⟩
  · intro h
    rw [get_situation_group, if_pos h]
  · intro h1 h2
    rw [get_situation_group, if_neg (by omega), if_pos h2]
  · intro h1 h2
    rw [get_situation_group, if_neg (by omega), if_neg (by omega), if_pos h2]
  · intro h1 h2
    refine ⟨?_, ?_, ?_⟩
    · intro h3
      rw [get_situation_group, if_neg (by omega), if_neg (by omega),
        if_neg (by omega), if_pos h2, if_pos h3]
    · intro h3 h4
      rw [get_situation_group, if_neg (by omega), if_neg (by omega),
        if_neg (by omega), if_pos h2, if_neg (by omega), if_pos h4]
    · intro h3
      rw [get_situation_group, if_neg (by omega), if_neg (by omega),
        if_neg (by omega), if_pos h2, if_neg (by omega), if_neg (by omega)]
  · intro h1 h2
    refine ⟨?_, ?_, ?_⟩
    · intro h3
      rw [get_situation_group, if_neg (by omega), if_neg (by omega),
        if_neg (by omega), if_neg (by omega), if_pos h2, if_pos h3]
    · intro h3 h4
      rw [get_situation_group, if_neg (by omega), if_neg (by omega),
        if_neg (by omega), if_neg (by omega), if_pos h2, if_neg (by omega),
        if_pos h4]
    · intro h3
      rw [get_situation_group, if_neg (by omega), if_neg (by omega),
        if_neg (by omega), if_neg (by omega), if_pos h2, if_neg (by omega),
        if_neg (by omega)]

theorem c3_situation_precedence_witness :
    get_situation_group 3 2 3 = SituationGroup.goal_line :=
  (c3_situation_precedence 3 2 3).1 (by decide)

/-- C4 (amended): an out-of-domain down value never raises — the classifier
silently files the situation under the field-position buckets or OTHER, and
`insert_drive` succeeds on it. -/
theorem c4_out_of_domain_down (st : State) (down ydstogo yardline_100 : ℤ)
    (p : PlaySym) (h : ¬(down = 1 ∨ down = 2 ∨ down = 3 ∨ down = 4)) :
    get_situation_group down ydstogo yardline_100 =
      (if yardline_100 ≤ 5 then .goal_line
       else if yardline_100 ≤ 20 then .red_zone
       else .other) ∧
    (insert_drive st [p] [(down, ydstogo, yardline_100)] none none none none
      none).isOk = true := by
  constructor
  · by_cases h5 : yardline_100 ≤ 5
    · rw [get_situation_group, if_pos h5, if_pos h5]
    · by_cases h20 : yardline_100 ≤ 20
      · rw [get_situation_group, if_neg h5, if_pos h20, if_neg h5, if_pos h20]
      · rw [get_situation_group, if_neg h5, if_neg h20, if_neg (by omega),
          if_neg (by omega), if_neg (by omega), if_neg h5, if_neg h20]
  · rw [insert_drive]
    rw [if_neg (by simp)]
    have hbad : ∀ n : ℕ, optLenBad (none : Option (List ℚ)) n = false := by
      intro n
      rfl
    have hbad2 : ∀ n : ℕ, optLenBad (none : Option (List String)) n = false := by
      intro n
      rfl
    rw [hbad, hbad2]
    simp only [Bool.and_false, Bool.false_eq_true, if_false]
    rfl

theorem c4_out_of_domain_down_witness :
    ¬((7 : ℤ) = 1 ∨ (7 : ℤ) = 2 ∨ (7 : ℤ) = 3 ∨ (7 : ℤ) = 4) ∧
    (get_situation_group 7 1 50 =
      (if (50 : ℤ) ≤ 5 then .goal_line
       else if (50 : ℤ) ≤ 20 then .red_zone
       else .other) ∧
    (insert_drive st0d [PlaySym.P] [(7, 1, 50)] none none none none
      none).isOk = true) :=
  ⟨by decide, c4_out_of_domain_down st0d 7 1 50 PlaySym.P (by decide)⟩

theorem c4_counterexample :
    (insert_drive st0d [PlaySym.P] [(7, 1, 50)] none none none none
      none).isOk = true ∧
    ((insert_drive st0d [PlaySym.P] [(7, 1, 50)] none none none none
      none).toOption.map
        (fun s => alookupD s.situation_counts
          (GroupKey.base SituationGroup.other) 0)) = some 1 :=
  ⟨rfl, rfl⟩

/-- C5 (amended): on every reachable predictor state, every key of the
insertion-counts map is also registered in the trie registry and carries a
non-negative count.  (The converse fails: the no-features constructor
pre-creates tries for all canonical buckets with no counts entries.) -/
theorem c5_counts_subset_registry (st : State) (h : Reachable st)
    (g : GroupKey) (c : ℤ) (hmem : (g, c) ∈ st.situation_counts) :
    (alookup st.tries g).isSome = true ∧ 0 ≤ c := by
  obtain ⟨hWF, hCI, hLA⟩ := reachable_inv h
  exact hCI (g, c) hmem

theorem c5_counts_subset_registry_witness :
    (alookup st1.tries (GroupKey.base SituationGroup.third_short)).isSome =
      true ∧ (0 : ℤ) ≤ 1 :=
  c5_counts_subset_registry st1
    (Reachable.step c1Drive c1Sits none none none none none
      (Reachable.init { max_depth := 5 }) rfl)
    (GroupKey.base SituationGroup.third_short) 1 (by decide)

theorem c5_counterexample :
    (alookup st0d.tries (GroupKey.base SituationGroup.goal_line)).isSome =
      true ∧
    alookup st0d.situation_counts (GroupKey.base SituationGroup.goal_line) =
      none :=
  ⟨rfl, rfl⟩

/-- C9 (amended): `insert_drive` fails when the symbols and situations lists
differ in length, and when an auxiliary list is provided with mismatched
length while its feature is enabled.  (A mismatched auxiliary list for a
disabled feature is ignored — see the counterexample.) -/
theorem c9_insert_validation (st : State) (pts : List PlaySym)
    (sits : List (ℤ × ℤ × ℤ)) (epas : Option (List ℚ))
    (sd tpr gsr : Option (List ℚ)) (pt : Option (List String)) :
    (pts.length ≠ sits.length →
      (insert_drive st pts sits epas sd tpr gsr pt).isOk = false) ∧
    (st.use_score = true → ∀ l, sd = some l → l.length ≠ sits.length →
      (insert_drive st pts sits epas sd tpr gsr pt).isOk = false) ∧
    (st.use_team_identity = true → ∀ l, tpr = some l →
      l.length ≠ sits.length →
      (insert_drive st pts sits epas sd tpr gsr pt).isOk = false) ∧
    (st.use_time_remaining = true → ∀ l, gsr = some l →
      l.length ≠ sits.length →
      (insert_drive st pts sits epas sd tpr gsr pt).isOk = false) ∧
    (st.use_home_away = true → ∀ l, pt = some l → l.length ≠ sits.length →
      (insert_drive st pts sits epas sd tpr gsr pt).isOk = false) := by
  refine ⟨?_, ?_, ?_, ?_, ?_⟩
  · intro hlen
    rw [insert_drive, if_pos hlen]
    rfl
  · intro hu l hl hlen
    by_cases h1 : pts.length ≠ sits.length
    · rw [insert_drive, if_pos h1]
      rfl
    · have hc : (st.use_score && optLenBad sd sits.length) = true := by
        rw [hu, hl]
        simpa [optLenBad] using hlen
      rw [insert_drive, if_neg h1, if_pos hc]
      rfl
  · intro hu l hl hlen
    by_cases h1 : pts.length ≠ sits.length
    · rw [insert_drive, if_pos h1]
      rfl
    · by_cases h2 : (st.use_score && optLenBad sd sits.length) = true
      · rw [insert_drive, if_neg h1, if_pos h2]
        rfl
      · have hc : (st.use_team_identity && optLenBad tpr sits.length) = true := by
          rw [hu, hl]
          simpa [optLenBad] using hlen
        rw [insert_drive, if_neg h1, if_neg h2, if_pos hc]
        rfl
  · intro hu l hl hlen
    by_cases h1 : pts.length ≠ sits.length
    · rw [insert_drive, if_pos h1]
      rfl
    · by_cases h2 : (st.use_score && optLenBad sd sits.length) = true
      · rw [insert_drive, if_neg h1, if_pos h2]
        rfl
      · by_cases h3 : (st.use_team_identity && optLenBad tpr sits.length) = true
        · rw [insert_drive, if_neg h1, if_neg h2, if_pos h3]
          rfl
        · have hc : (st.use_time_remaining &&
              optLenBad gsr sits.length) = true := by
            rw [hu, hl]
            simpa [optLenBad] using hlen
          rw [insert_drive, if_neg h1, if_neg h2, if_neg h3, if_pos hc]
          rfl
  · intro hu l hl hlen
    by_cases h1 : pts.length ≠ sits.length
    · rw [insert_drive, if_pos h1]
      rfl
    · by_cases h2 : (st.use_score && optLenBad sd sits.length) = true
      · rw [insert_drive, if_neg h1, if_pos h2]
        rfl
      · by_cases h3 : (st.use_team_identity && optLenBad tpr sits.length) = true
        · rw [insert_drive, if_neg h1, if_neg h2, if_pos h3]
          rfl
        · by_cases h4 : (st.use_time_remaining &&
              optLenBad gsr sits.length) = true
          · rw [insert_drive, if_neg h1, if_neg h2, if_neg h3, if_pos h4]
            rfl
          · have hc : (st.use_home_away && optLenBad pt sits.length) = true := by
              rw [hu, hl]
              simpa [optLenBad] using hlen
            rw [insert_drive, if_neg h1, if_neg h2, if_neg h3, if_neg h4,
              if_pos hc]
            rfl

theorem c9_insert_validation_witness :
    [PlaySym.P].length ≠ ([] : List (ℤ × ℤ × ℤ)).length ∧
    (insert_drive st0d [PlaySym.P] [] none none none none none).isOk =
      false :=
  ⟨by decide,
    (c9_insert_validation st0d [PlaySym.P] [] none none none none none).1
      (by decide)⟩

theorem c9_counterexample :
    st0d.use_score = false ∧
    (insert_drive st0d [PlaySym.P] [(1, 10, 50)] none (some [1, 2]) none none
      none).isOk = true :=
  ⟨rfl, rfl⟩

/-- C10: the `k` argument of `predict` has no effect on the result — the
internal trie queries always pass the literal 10. -/
theorem c10_predict_k_independent (st : State) (situation : ℤ × ℤ × ℤ)
    (recents : List PlaySym) (k1 k2 : ℕ) (sd tpr gsr : Option ℚ)
    (pt : Option String) :
    predict st situation recents k1 sd tpr gsr pt =
      predict st situation recents k2 sd tpr gsr pt := rfl

theorem c6_probability_normalization_witness :
    (predict st0d (1, 10, 50) [] 5 none none none none).1 ≠ [] ∧
    ((predict st0d (1, 10, 50) [] 5 none none none none).1.map
      Prod.snd).sum = 1 :=
  ⟨by decide,
    c6_probability_normalization st0d (Reachable.init { max_depth := 5 })
      (1, 10, 50) [] 5 none none none none (by decide)⟩

theorem c8_trie_roundtrip_witness :
    ((1 : ℕ) ≤ 10 ∧ (1 : ℕ) ≤ 1 ∧ 1 < [PlaySym.P, PlaySym.R].length) ∧
    ((pstPredict (insert_sequence (pstEmpty 10) [PlaySym.P, PlaySym.R] [])
        ([PlaySym.P, PlaySym.R].take 1) 5).1 ≠ [] ∧
      ∃ q : ℚ, ([PlaySym.P, PlaySym.R].get ⟨1, by decide⟩, q) ∈
        (pstPredict (insert_sequence (pstEmpty 10) [PlaySym.P, PlaySym.R] [])
          ([PlaySym.P, PlaySym.R].take 1) 5).1 ∧ 0 < q) :=
  ⟨⟨by decide, by decide, by decide⟩,
    c8_trie_roundtrip 10 (by decide) [PlaySym.P, PlaySym.R] 1 (by decide)
      (by decide)⟩

theorem c1_counterexample :
    predict st1 (3, 2, 65) [PlaySym.P, PlaySym.R] 5 none none none none =
      (st1.league_average, 0) ∧
    (predict st1 (3, 2, 65) [PlaySym.P, PlaySym.R] 5 none none none
      none).1.length = 2 ∧
    (predict st1 (3, 2, 65) [PlaySym.P, PlaySym.R] 5 none none none
      none).2 = 0 ∧
    ¬(predict st1 (3, 2, 65) [PlaySym.P, PlaySym.R] 5 none none none none =
      ([("P", 1)], 2)) := by
  refine ⟨rfl, rfl, rfl, ?_⟩
  intro hcontra
  have h2 : (predict st1 (3, 2, 65) [PlaySym.P, PlaySym.R] 5 none none none
      none).2 = 2 := by rw [hcontra]
  exact absurd h2 (by decide)

/-- C1 (amended): with hierarchical fallback disabled, the exact-values
scenario behaves as specified — inserting the drive and predicting at
(3, 2, 65) with context [PASS, RUN] yields the pure distribution P ↦ 1 at
matched depth 2. -/
theorem c1_exact_scenario_no_fallback :
    predict st1nf (3, 2, 65) [PlaySym.P, PlaySym.R] 5 none none none none =
      ([("P", 1)], 2) := by
  have h1 : predict st1nf (3, 2, 65) [PlaySym.P, PlaySym.R] 5 none none none
      none =
      (aggregate_predictions [(PlaySym.P, ((1 : ℕ) : ℚ) / ((1 : ℕ) : ℚ))],
        2) := rfl
  have h2 : aggregate_predictions
      [(PlaySym.P, ((1 : ℕ) : ℚ) / ((1 : ℕ) : ℚ))] = [("P", 1)] := by
    norm_num [aggregate_predictions, normalizeAgg, aset, alookupD, alookup,
      PlaySym.code]
  rw [h1, h2]

/-- C7: after two insertions of [P,R,P] and one of [P,R,R], predicting with
context [P,R] yields P ↦ 2/3, R ↦ 1/3 (at matched depth 2). -/
theorem c7_multi_count_distribution :
    pstPredict t7 [PlaySym.P, PlaySym.R] 5 =
      ([(PlaySym.P, 2 / 3), (PlaySym.R, 1 / 3)], 2) := by
  have h1 : pstPredict t7 [PlaySym.P, PlaySym.R] 5 =
      ([(PlaySym.P, ((2 : ℕ) : ℚ) / ((3 : ℕ) : ℚ)),
        (PlaySym.R, ((1 : ℕ) : ℚ) / ((3 : ℕ) : ℚ))], 2) := rfl
  rw [h1]
  norm_num
